import Mathlib

/-!
Shallow embedding, in Lean 4, of the simulation-and-search core of a
rule-based trading-strategy evaluator: the technical-indicator library and
single-position backtest of `src/utils/mlTraining.ts`, the futures
backtest engine, and the genetic parameter optimizer.

JavaScript numbers are modelled as rationals (`ℚ`); counts, list indices
and lookback periods as naturals.  Division by zero yields `0` in `ℚ`
where JavaScript would produce `NaN` or `Infinity`; theorems therefore
restrict lookback periods to be positive, which every caller in the
repository (default config, random generation ranges, genetic
recombination of those) guarantees.
-/

namespace Trading

/-- The list of price changes `prices[i] - prices[i-1]` for
`i = 1 .. period`: the loop body of `calculateRSI`.  Note these are the
FIRST `period` transitions of the list, not the most recent ones. -/
def rsiChanges (prices : List ℚ) (period : ℕ) : List ℚ :=
  (List.range period).map (fun i => prices.getD (i + 1) 0 - prices.getD i 0)

/-- Sum of the positive changes (the `gains` accumulator of
`calculateRSI`). -/
def rsiGains (prices : List ℚ) (period : ℕ) : ℚ :=
  ((rsiChanges prices period).map (fun c => if 0 < c then c else 0)).sum

/-- Sum of the absolute values of the non-positive changes (the `losses`
accumulator of `calculateRSI`). -/
def rsiLosses (prices : List ℚ) (period : ℕ) : ℚ :=
  ((rsiChanges prices period).map (fun c => if 0 < c then 0 else -c)).sum

/-- `calculateRSI` from `src/utils/mlTraining.ts`. -/
def calculateRSI (prices : List ℚ) (period : ℕ) : ℚ :=
  if prices.length < period + 1 then 50
  else
    let avgGain := rsiGains prices period / period
    let avgLoss := rsiLosses prices period / period
    if avgLoss = 0 then 100
    else 100 - 100 / (1 + avgGain / avgLoss)

/-- `calculateEMA` from `src/utils/mlTraining.ts`.  The short-history
fallback `prices[prices.length - 1] || 0` is `getLastD 0`. -/
def calculateEMA (prices : List ℚ) (period : ℕ) : ℚ :=
  if prices.length < period then prices.getLastD 0
  else
    let multiplier : ℚ := 2 / (period + 1)
    (prices.drop period).foldl
      (fun ema price => (price - ema) * multiplier + ema)
      ((prices.take period).sum / period)

/-- `calculateSMA` from `src/utils/mlTraining.ts`; `prices.slice(-period)`
is `drop (length - period)` since in the live branch `period ≤ length`. -/
def calculateSMA (prices : List ℚ) (period : ℕ) : ℚ :=
  if prices.length < period then prices.getLastD 0
  else (prices.drop (prices.length - period)).sum / period

/-- `calculateMACD` from `src/utils/mlTraining.ts`.  The signal line is
the source's deliberate fixed-ratio approximation `macd * 0.9`.  The
`signalPeriod` argument is accepted and unused, as in the source. -/
def calculateMACD (prices : List ℚ) (fastPeriod slowPeriod signalPeriod : ℕ) :
    ℚ × ℚ :=
  if prices.length < slowPeriod then (0, 0)
  else
    let macd := calculateEMA prices fastPeriod - calculateEMA prices slowPeriod
    (macd, macd * (9 / 10))

/-- The variance of the trailing `period` prices.  The source's
`calculateVolatility` returns `Math.sqrt` of this value; the square root
of a rational is irrational in general, and the resulting volatility
feeds only the confidence damping of `generateSignal`, which no
downstream decision in the repository reads, so the embedding carries the
variance (σ²). -/
def calculateVolatilitySq (prices : List ℚ) (period : ℕ) : ℚ :=
  if prices.length < period then 0
  else
    let slice := prices.drop (prices.length - period)
    let mean := slice.sum / period
    ((slice.map (fun price => (price - mean) ^ 2)).sum) / period

/-- `CandleData` from `src/utils/mlTraining.ts` (`open` is a Lean keyword,
hence the guillemets). -/
structure CandleData where
  «open» : ℚ
  high : ℚ
  low : ℚ
  close : ℚ
  volume : ℚ
  timestamp : ℤ
deriving DecidableEq

instance : Inhabited CandleData := ⟨⟨0, 0, 0, 0, 0, 0⟩⟩

/-- `StrategyParams` from `src/utils/mlTraining.ts`.  Lookback periods are
naturals (they index lists); thresholds are rationals. -/
structure StrategyParams where
  rsiPeriod : ℕ
  rsiOverbought : ℚ
  rsiOversold : ℚ
  macdFast : ℕ
  macdSlow : ℕ
  macdSignal : ℕ
  smaFastPeriod : ℕ
  smaSlowPeriod : ℕ
  volatilityPeriod : ℕ
  volumeThreshold : ℚ
deriving DecidableEq

/-- `DEFAULT_PARAMS` from `src/utils/mlTraining.ts`. -/
def DEFAULT_PARAMS : StrategyParams :=
  { rsiPeriod := 14
    rsiOverbought := 70
    rsiOversold := 30
    macdFast := 12
    macdSlow := 26
    macdSignal := 9
    smaFastPeriod := 20
    smaSlowPeriod := 50
    volatilityPeriod := 20
    volumeThreshold := 3 / 2 }

/-- `TrainingFeatures` from `src/utils/mlTraining.ts`; `volatilitySq` is
the square of the source's `volatility` field (see
`calculateVolatilitySq`). -/
structure TrainingFeatures where
  rsi : ℚ
  macd : ℚ
  macdSignal : ℚ
  smaFast : ℚ
  smaSlow : ℚ
  volumeRatio : ℚ
  priceChange : ℚ
  volatilitySq : ℚ
deriving DecidableEq

/-- `extractFeatures` from `src/utils/mlTraining.ts`. -/
def extractFeatures (candles : List CandleData)
    (params : StrategyParams) : TrainingFeatures :=
  let closes := candles.map (·.close)
  let volumes := candles.map (·.volume)
  let rsi := calculateRSI closes params.rsiPeriod
  let ms := calculateMACD closes params.macdFast params.macdSlow params.macdSignal
  let smaFast := calculateSMA closes params.smaFastPeriod
  let smaSlow := calculateSMA closes params.smaSlowPeriod
  let volatilitySq := calculateVolatilitySq closes params.volatilityPeriod
  let avgVolume := volumes.sum / (volumes.length : ℚ)
  let currentVolume := volumes.getLastD 0
  let volumeRatio := if 0 < avgVolume then currentVolume / avgVolume else 1
  let priceChange :=
    if 1 < closes.length then
      (closes.getLastD 0 - closes.headD 0) / closes.headD 0 * 100
    else 0
  { rsi
    macd := ms.1
    macdSignal := ms.2
    smaFast
    smaSlow
    volumeRatio
    priceChange
    volatilitySq }

/-- The three trading signals of `generateSignal`. -/
inductive Signal where
  | BUY
  | SELL
  | HOLD
deriving DecidableEq

/-- The bullish score accumulated by `generateSignal`. -/
def bullishScore (f : TrainingFeatures) (params : StrategyParams) : ℚ :=
  (if f.rsi < params.rsiOversold then 2 else 0) +
  (if f.macdSignal < f.macd then 2 else 0) +
  (if f.smaSlow < f.smaFast then 3 / 2 else 0) +
  (if params.volumeThreshold < f.volumeRatio ∧ 0 < f.priceChange then 1 else 0)

/-- The bearish score accumulated by `generateSignal`. -/
def bearishScore (f : TrainingFeatures) (params : StrategyParams) : ℚ :=
  (if params.rsiOverbought < f.rsi then 2 else 0) +
  (if f.macd < f.macdSignal then 2 else 0) +
  (if f.smaFast < f.smaSlow then 3 / 2 else 0) +
  (if params.volumeThreshold < f.volumeRatio ∧ f.priceChange < 0 then 1 else 0)

/-- The signal component of `generateSignal` from
`src/utils/mlTraining.ts`.  The source also computes a confidence number
(`50 + winningScore/totalScore*50`, capped at 95, damped by volatility);
no caller in the simulation core reads it (the backtest destructures only
`signal`), and its damping factor needs the irrational square root of the
variance, so the embedding carries the decision only. -/
def generateSignal (features : TrainingFeatures)
    (params : StrategyParams) : Signal :=
  let bullish := bullishScore features params
  let bearish := bearishScore features params
  if bearish < bullish ∧ 3 < bullish then .BUY
  else if bullish < bearish ∧ 3 < bearish then .SELL
  else .HOLD

/-- The mutable loop state of `backtestStrategy`: balance, position flag
(`0` = flat, `1` = long, as the source comment says), entry price, win
and trade counters. -/
structure BTState where
  balance : ℚ
  position : ℤ
  entryPrice : ℚ
  wins : ℕ
  totalTrades : ℕ
deriving DecidableEq

/-- Initial state of `backtestStrategy`. -/
def btInit : BTState := ⟨10000, 0, 0, 0, 0⟩

/-- One iteration of the `backtestStrategy` loop at index `i`. -/
def btStep (candles : List CandleData) (params : StrategyParams)
    (s : BTState) (i : ℕ) : BTState :=
  let subset := candles.take (i + 1)
  let signal := generateSignal (extractFeatures subset params) params
  let currentPrice := (candles.getD i default).close
  if signal = .BUY ∧ s.position = 0 then
    { s with position := 1, entryPrice := currentPrice }
  else if signal = .SELL ∧ s.position = 1 then
    let profit := (currentPrice - s.entryPrice) / s.entryPrice
    { s with
        balance := s.balance * (1 + profit)
        position := 0
        wins := s.wins + if 0 < profit then 1 else 0
        totalTrades := s.totalTrades + 1 }
  else s

/-- `minDataPoints` of `backtestStrategy`:
`max(smaSlowPeriod, macdSlow + macdSignal, rsiPeriod) + 1`. -/
def minDataPoints (params : StrategyParams) : ℕ :=
  max params.smaSlowPeriod (max (params.macdSlow + params.macdSignal) params.rsiPeriod) + 1

/-- The loop of `backtestStrategy` (indices `minDataPoints .. length-1`)
followed by the close of a final open position.  The source's final close
mutates balance/wins/totalTrades but not the position flag. -/
def btFinal (candles : List CandleData) (params : StrategyParams) : BTState :=
  let s := ((List.range candles.length).drop (minDataPoints params)).foldl
    (btStep candles params) btInit
  if s.position = 1 then
    let currentPrice := (candles.getLastD default).close
    let profit := (currentPrice - s.entryPrice) / s.entryPrice
    { s with
        balance := s.balance * (1 + profit)
        wins := s.wins + if 0 < profit then 1 else 0
        totalTrades := s.totalTrades + 1 }
  else s

/-- The result record of `backtestStrategy`. -/
structure BacktestOutcome where
  profit : ℚ
  accuracy : ℚ
  trades : ℕ
deriving DecidableEq

/-- `backtestStrategy` from `src/utils/mlTraining.ts`. -/
def backtestStrategy (candles : List CandleData)
    (params : StrategyParams) : BacktestOutcome :=
  let s := btFinal candles params
  { profit := (s.balance - 10000) / 10000 * 100
    accuracy :=
      if 0 < s.totalTrades then ((s.wins : ℚ) / (s.totalTrades : ℚ)) * 100 else 0
    trades := s.totalTrades }

/-! ## Genetic parameter optimizer (strategy optimizer module)

Randomness is made explicit: every call of the source's `Math.random()`
becomes a parameter.  `randomInt(min, max)` draws from a supplied natural
`r` as `min + r % (max - min + 1)`, which ranges over exactly
`[min, max]`; each `Math.random() < MUTATION_RATE` Bernoulli draw
together with the value it would produce becomes an `Option` choice; each
`Math.random() > 0.5` coin of the crossover becomes a `Bool`. -/

/-- `Individual` from the optimizer module. -/
structure Individual where
  params : StrategyParams
  fitness : ℚ
  accuracy : ℚ
  profit : ℚ
deriving DecidableEq

instance : Inhabited Individual := ⟨⟨DEFAULT_PARAMS, 0, 0, 0⟩⟩

/-- `POPULATION_SIZE` from the optimizer module. -/
def POPULATION_SIZE : ℕ := 20

/-- `randomInt(min, max)` driven by an explicit entropy value `r`. -/
def randInt (r : ℕ) (lo hi : ℕ) : ℕ := lo + r % (hi - lo + 1)

/-- `randomFloat(min, max)` driven by an explicit entropy value
`r ∈ [0, 1)`. -/
def randFloat (r : ℚ) (lo hi : ℚ) : ℚ := r * (hi - lo) + lo

/-- The per-individual body of `evaluatePopulation`'s `map`: skip when
`fitness ≠ 0`, otherwise backtest, penalize low accuracy (−50 below 40)
and low trade count (−20 below 5), and copy accuracy and profit. -/
def evalIndividual (candles : List CandleData) (ind : Individual) : Individual :=
  if ind.fitness ≠ 0 then ind
  else
    let result := backtestStrategy candles ind.params
    let fitness :=
      result.profit - (if result.accuracy < 40 then 50 else 0)
        - (if result.trades < 5 then 20 else 0)
    { params := ind.params
      fitness := fitness
      accuracy := result.accuracy
      profit := result.profit }

/-- `evaluatePopulation` from the optimizer module: map the evaluation
body over the population, then sort descending by fitness (the source's
stable `Array.prototype.sort` with comparator `b.fitness - a.fitness`). -/
def evaluatePopulation (population : List Individual)
    (candles : List CandleData) : List Individual :=
  (population.map (evalIndividual candles)).mergeSort
    (fun a b => decide (b.fitness ≤ a.fitness))

/-- The ten independent coins of the uniform `crossover` (true picks
`parent1`'s gene, false picks `parent2`'s, matching
`Math.random() > 0.5 ? parent1.x : parent2.x`). -/
structure CrossChoice where
  rsiPeriod : Bool
  rsiOverbought : Bool
  rsiOversold : Bool
  macdFast : Bool
  macdSlow : Bool
  macdSignal : Bool
  smaFastPeriod : Bool
  smaSlowPeriod : Bool
  volatilityPeriod : Bool
  volumeThreshold : Bool

/-- `crossover` from the optimizer module. -/
def crossover (c : CrossChoice) (parent1 parent2 : StrategyParams) :
    StrategyParams :=
  { rsiPeriod := if c.rsiPeriod then parent1.rsiPeriod else parent2.rsiPeriod
    rsiOverbought :=
      if c.rsiOverbought then parent1.rsiOverbought else parent2.rsiOverbought
    rsiOversold :=
      if c.rsiOversold then parent1.rsiOversold else parent2.rsiOversold
    macdFast := if c.macdFast then parent1.macdFast else parent2.macdFast
    macdSlow := if c.macdSlow then parent1.macdSlow else parent2.macdSlow
    macdSignal := if c.macdSignal then parent1.macdSignal else parent2.macdSignal
    smaFastPeriod :=
      if c.smaFastPeriod then parent1.smaFastPeriod else parent2.smaFastPeriod
    smaSlowPeriod :=
      if c.smaSlowPeriod then parent1.smaSlowPeriod else parent2.smaSlowPeriod
    volatilityPeriod :=
      if c.volatilityPeriod then parent1.volatilityPeriod else parent2.volatilityPeriod
    volumeThreshold :=
      if c.volumeThreshold then parent1.volumeThreshold else parent2.volumeThreshold }

/-- The per-gene mutation draws of `mutate`: `some r` models
`Math.random() < MUTATION_RATE` succeeding with entropy `r` for the
re-randomized gene, `none` models the gene kept. -/
structure MutateChoice where
  rsiPeriod : Option ℕ
  rsiOverbought : Option ℕ
  rsiOversold : Option ℕ
  macdFast : Option ℕ
  macdSlow : Option ℕ
  macdSignal : Option ℕ
  smaFastPeriod : Option ℕ
  smaSlowPeriod : Option ℕ
  volatilityPeriod : Option ℕ
  volumeThreshold : Option ℚ

/-- The repair block at the end of `mutate` ("Ensure logical
constraints"): an offending fast period is replaced by
`Math.floor(slow / 2)` (natural division is the floor). -/
def repair (p : StrategyParams) : StrategyParams :=
  let p1 :=
    if p.smaSlowPeriod ≤ p.smaFastPeriod then
      { p with smaFastPeriod := p.smaSlowPeriod / 2 }
    else p
  if p1.macdSlow ≤ p1.macdFast then
    { p1 with macdFast := p1.macdSlow / 2 }
  else p1

/-- `mutate` from the optimizer module: independent per-gene
re-randomization within the gene's range, then the repair pass. -/
def mutate (c : MutateChoice) (params : StrategyParams) : StrategyParams :=
  repair
    { rsiPeriod :=
        match c.rsiPeriod with
        | some r => randInt r 5 30
        | none => params.rsiPeriod
      rsiOverbought :=
        match c.rsiOverbought with
        | some r => (randInt r 60 90 : ℚ)
        | none => params.rsiOverbought
      rsiOversold :=
        match c.rsiOversold with
        | some r => (randInt r 10 40 : ℚ)
        | none => params.rsiOversold
      macdFast :=
        match c.macdFast with
        | some r => randInt r 5 20
        | none => params.macdFast
      macdSlow :=
        match c.macdSlow with
        | some r => randInt r 21 50
        | none => params.macdSlow
      macdSignal :=
        match c.macdSignal with
        | some r => randInt r 5 15
        | none => params.macdSignal
      smaFastPeriod :=
        match c.smaFastPeriod with
        | some r => randInt r 5 50
        | none => params.smaFastPeriod
      smaSlowPeriod :=
        match c.smaSlowPeriod with
        | some r => randInt r 51 200
        | none => params.smaSlowPeriod
      volatilityPeriod :=
        match c.volatilityPeriod with
        | some r => randInt r 10 50
        | none => params.volatilityPeriod
      volumeThreshold :=
        match c.volumeThreshold with
        | some r => randFloat r (11 / 10) 3
        | none => params.volumeThreshold }

/-- The random draws consumed while producing one offspring in
`evolvePopulation`: two tournament-selection indices, the crossover
coins, and the mutation draws. -/
structure OffspringChoice where
  r1 : ℕ
  r2 : ℕ
  cross : CrossChoice
  mutation : MutateChoice

/-- `evolvePopulation` from the optimizer module: keep the top two
individuals (elitism), then fill up to `POPULATION_SIZE` with mutated
crossovers of tournament-selected parents, each new offspring starting
with zero fitness, accuracy and profit.  `ch k` supplies the random
draws of the `k`-th offspring. -/
def evolvePopulation (ch : ℕ → OffspringChoice)
    (population : List Individual) : List Individual :=
  let offspring := fun (k : ℕ) =>
    let c := ch k
    let p1 := population.getD (randInt c.r1 0 (min 10 (population.length - 1))) default
    let p2 := population.getD (randInt c.r2 0 (min 10 (population.length - 1))) default
    let childParams := mutate c.mutation (crossover c.cross p1.params p2.params)
    { params := childParams, fitness := 0, accuracy := 0, profit := 0 : Individual }
  [population.getD 0 default, population.getD 1 default] ++
    (List.range (POPULATION_SIZE - 2)).map offspring

/-! ## Futures backtesting engine

The engine consumes a `FuturesContract`, a historical series, a config,
and the prediction function `generateFuturesPrediction` of the futures
prediction module.  The embedding takes the prediction function as an
explicit parameter `predict`: the engine only destructures the
prediction's level, confidence, target and stop, so every theorem below
holds for the repository's concrete predictor as a special case. -/

/-- `FuturesHistoricalData` from the market-data service (fields the
engine reads). -/
structure FuturesHistoricalData where
  timestamp : ℤ
  «open» : ℚ
  high : ℚ
  low : ℚ
  close : ℚ
  volume : ℚ
  openInterest : ℚ
deriving DecidableEq

instance : Inhabited FuturesHistoricalData := ⟨⟨0, 0, 0, 0, 0, 0, 0⟩⟩

/-- The fields of `FuturesContract` consumed by the engine. -/
structure FuturesContract where
  symbol : String
  lotSize : ℚ
  marginRequired : ℚ

/-- The five-level directional call of `FuturesPrediction`. -/
inductive PredictionLevel where
  | STRONG_BUY
  | BUY
  | HOLD
  | SELL
  | STRONG_SELL
deriving DecidableEq

/-- The fields of `FuturesPrediction` consumed by the engine. -/
structure FuturesPrediction where
  prediction : PredictionLevel
  confidence : ℚ
  targetPrice : ℚ
  stopLoss : ℚ

/-- `BacktestConfig` from the futures backtest module. -/
structure BacktestConfig where
  initialCapital : ℚ
  positionSize : ℚ
  maxPositions : ℕ
  riskPerTrade : ℚ
  useStopLoss : Bool
  useTrailingStop : Bool
  trailingStopPercent : ℚ
  commission : ℚ
  slippage : ℚ

/-- `DEFAULT_BACKTEST_CONFIG` from the futures backtest module. -/
def DEFAULT_BACKTEST_CONFIG : BacktestConfig :=
  { initialCapital := 100000
    positionSize := 1
    maxPositions := 3
    riskPerTrade := 2
    useStopLoss := true
    useTrailingStop := true
    trailingStopPercent := 3 / 2
    commission := 20
    slippage := 1 / 2 }

/-- Trade direction. -/
inductive PositionType where
  | LONG
  | SHORT
deriving DecidableEq

/-- The `exitReason` union of `BacktestTrade`. -/
inductive ExitReason where
  | TARGET
  | STOP_LOSS
  | SIGNAL
  | END_OF_DATA
deriving DecidableEq

/-- `OpenPosition` from the futures backtest module. -/
structure OpenPosition where
  entryDate : ℤ
  symbol : String
  type : PositionType
  entryPrice : ℚ
  quantity : ℚ
  stopLoss : ℚ
  target : ℚ
  trailingStop : ℚ
deriving DecidableEq

/-- `BacktestTrade` from the futures backtest module. -/
structure BacktestTrade where
  entryDate : ℤ
  exitDate : ℤ
  symbol : String
  type : PositionType
  entryPrice : ℚ
  exitPrice : ℚ
  quantity : ℚ
  pnl : ℚ
  pnlPercent : ℚ
  commission : ℚ
  exitReason : ExitReason
  holdingPeriod : ℚ
deriving DecidableEq

/-- The trailing-stop ratchet at the top of the per-position loop: when
trailing stops are on and the position's unrealized P&L is positive, the
trailing stop moves toward price and never loosens (`max` for longs,
`min` for shorts). -/
def updateTrailing (cfg : BacktestConfig) (price : ℚ)
    (pos : OpenPosition) : OpenPosition :=
  if cfg.useTrailingStop then
    if pos.type = .LONG ∧ 0 < (price - pos.entryPrice) * pos.quantity then
      { pos with
          trailingStop :=
            max pos.trailingStop (price * (1 - cfg.trailingStopPercent / 100)) }
    else if pos.type = .SHORT ∧ 0 < (pos.entryPrice - price) * pos.quantity then
      { pos with
          trailingStop :=
            min pos.trailingStop (price * (1 + cfg.trailingStopPercent / 100)) }
    else pos
  else pos

/-- The exit-condition cascade of the per-position loop, in source order:
fixed stop-loss, then trailing stop, then target; the first condition
that holds fixes the exit reason and fill price (`shouldExit`
short-circuits the later checks).  `none` means the position stays
open. -/
def checkExit (cfg : BacktestConfig) (pos : OpenPosition) (price : ℚ) :
    Option (ExitReason × ℚ) :=
  if cfg.useStopLoss ∧ pos.type = .LONG ∧ price ≤ pos.stopLoss then
    some (.STOP_LOSS, pos.stopLoss - cfg.slippage)
  else if cfg.useStopLoss ∧ pos.type = .SHORT ∧ pos.stopLoss ≤ price then
    some (.STOP_LOSS, pos.stopLoss + cfg.slippage)
  else if cfg.useTrailingStop ∧ pos.type = .LONG ∧ price ≤ pos.trailingStop then
    some (.STOP_LOSS, pos.trailingStop - cfg.slippage)
  else if cfg.useTrailingStop ∧ pos.type = .SHORT ∧ pos.trailingStop ≤ price then
    some (.STOP_LOSS, pos.trailingStop + cfg.slippage)
  else if pos.type = .LONG ∧ pos.target ≤ price then
    some (.TARGET, pos.target)
  else if pos.type = .SHORT ∧ price ≤ pos.target then
    some (.TARGET, pos.target)
  else none

/-- Signed gross P&L of a position against a price (before
commission). -/
def rawPnl (pos : OpenPosition) (price : ℚ) : ℚ :=
  match pos.type with
  | .LONG => (price - pos.entryPrice) * pos.quantity
  | .SHORT => (pos.entryPrice - price) * pos.quantity

/-- The `BacktestTrade` record pushed on exit. -/
def mkTrade (cfg : BacktestConfig) (pos : OpenPosition) (date : ℤ)
    (reason : ExitReason) (exitPrice : ℚ) : BacktestTrade :=
  let pnl := rawPnl pos exitPrice - cfg.commission * 2
  { entryDate := pos.entryDate
    exitDate := date
    symbol := pos.symbol
    type := pos.type
    entryPrice := pos.entryPrice
    exitPrice := exitPrice
    quantity := pos.quantity
    pnl := pnl
    pnlPercent := pnl / (pos.entryPrice * pos.quantity) * 100
    commission := cfg.commission * 2
    exitReason := reason
    holdingPeriod := ((date - pos.entryDate : ℤ) : ℚ) / 86400000 }

/-- The per-bar open-position sweep (the source's reverse `for j` loop
with `splice`): each position first gets its trailing stop ratcheted,
then is either closed — producing a trade and realized P&L — or kept.
Survivors keep their relative order; the closed trades are listed in the
source's push order (descending original index). -/
def processPositions (cfg : BacktestConfig) (price : ℚ) (date : ℤ)
    (positions : List OpenPosition) :
    List OpenPosition × List BacktestTrade × ℚ :=
  positions.foldr
    (fun pos acc =>
      let pos := updateTrailing cfg price pos
      match checkExit cfg pos price with
      | some (reason, exitPrice) =>
          let trade := mkTrade cfg pos date reason exitPrice
          (acc.1, acc.2.1 ++ [trade], acc.2.2 + trade.pnl)
      | none => (pos :: acc.1, acc.2.1, acc.2.2))
    ([], [], 0)

/-- The entry block of the per-bar loop: capacity check, prediction on
the series truncated to the current bar, strong-or-confident gate,
risk-based position sizing (`Math.floor` is `Int.floor`), margin check
with a 20% buffer, slippage against the trader on the fill, and the
entry commission. -/
def tryEnter (contract : FuturesContract)
    (predict : List FuturesHistoricalData → FuturesPrediction)
    (cfg : BacktestConfig) (data : List FuturesHistoricalData) (i : ℕ)
    (capital : ℚ) (positions : List OpenPosition) :
    List OpenPosition × ℚ :=
  if positions.length < cfg.maxPositions then
    let currentDate := (data.getD i default).timestamp
    let currentPrice := (data.getD i default).close
    let prediction := predict (data.take (i + 1))
    let shouldEnterLong :=
      prediction.prediction = .STRONG_BUY ∨
        (prediction.prediction = .BUY ∧ 70 < prediction.confidence)
    let shouldEnterShort :=
      prediction.prediction = .STRONG_SELL ∨
        (prediction.prediction = .SELL ∧ 70 < prediction.confidence)
    if shouldEnterLong ∨ shouldEnterShort then
      let riskAmount := capital * (cfg.riskPerTrade / 100)
      let stopDistance := |currentPrice - prediction.stopLoss|
      let lotSize := contract.lotSize
      let quantity : ℚ :=
        ((⌊riskAmount / (stopDistance * lotSize)⌋ : ℤ) : ℚ) * lotSize
      let quantity := max quantity lotSize
      let quantity := min quantity (cfg.positionSize * lotSize)
      let requiredMargin := contract.marginRequired * (quantity / lotSize)
      if requiredMargin * (6 / 5) < capital then
        let entryPrice :=
          if shouldEnterLong then currentPrice + cfg.slippage
          else currentPrice - cfg.slippage
        (positions ++
          [{ entryDate := currentDate
             symbol := contract.symbol
             type := if shouldEnterLong then .LONG else .SHORT
             entryPrice := entryPrice
             quantity := quantity
             stopLoss := prediction.stopLoss
             target := prediction.targetPrice
             trailingStop :=
               if shouldEnterLong then
                 entryPrice * (1 - cfg.trailingStopPercent / 100)
               else entryPrice * (1 + cfg.trailingStopPercent / 100) }],
          capital - cfg.commission)
      else (positions, capital)
    else (positions, capital)
  else (positions, capital)

/-- A sampled equity-curve point. -/
structure EquityPoint where
  date : ℤ
  equity : ℚ
  drawdown : ℚ
deriving DecidableEq

/-- The mutable state threaded through the bar loop of
`runFuturesBacktest`. -/
structure RunState where
  capital : ℚ
  peakCapital : ℚ
  maxDrawdown : ℚ
  openPositions : List OpenPosition
  trades : List BacktestTrade
  equityCurve : List EquityPoint

/-- One bar of `runFuturesBacktest`: exits, entries, mark-to-market
equity, peak/drawdown update, sparse equity-curve sampling. -/
def barStep (contract : FuturesContract)
    (predict : List FuturesHistoricalData → FuturesPrediction)
    (cfg : BacktestConfig) (data : List FuturesHistoricalData)
    (s : RunState) (i : ℕ) : RunState :=
  let currentDate := (data.getD i default).timestamp
  let currentPrice := (data.getD i default).close
  let pp := processPositions cfg currentPrice currentDate s.openPositions
  let capital := s.capital + pp.2.2
  let trades := s.trades ++ pp.2.1
  let entered := tryEnter contract predict cfg data i capital pp.1
  let positions := entered.1
  let capital := entered.2
  let unrealized := (positions.map (fun p => rawPnl p currentPrice)).sum
  let equity := capital + unrealized
  let peak := max s.peakCapital equity
  let currentDrawdown := (peak - equity) / peak * 100
  let equityCurve :=
    if i % 10 = 0 ∨ i = data.length - 1 then
      s.equityCurve ++ [⟨currentDate, equity, currentDrawdown⟩]
    else s.equityCurve
  { capital := capital
    peakCapital := peak
    maxDrawdown := max s.maxDrawdown currentDrawdown
    openPositions := positions
    trades := trades
    equityCurve := equityCurve }

/-- Gross winning P&L of a ledger (`totalWins` of
`calculateBacktestMetrics`). -/
def grossWins (trades : List BacktestTrade) : ℚ :=
  ((trades.filter (fun t => 0 < t.pnl)).map (·.pnl)).sum

/-- Absolute gross losing P&L of a ledger (`totalLosses` of
`calculateBacktestMetrics`). -/
def grossLosses (trades : List BacktestTrade) : ℚ :=
  |((trades.filter (fun t => t.pnl < 0)).map (·.pnl)).sum|

/-- `BacktestMetrics` from the futures backtest module.  The source also
carries a `sharpeRatio` (`mean/stdDev × √252` over per-trade percent
returns); both the standard deviation and `√252` are irrational, no
claim reads it, and nothing else consumes it, so the embedding omits
that one field. -/
structure BacktestMetrics where
  totalTrades : ℕ
  winningTrades : ℕ
  losingTrades : ℕ
  winRate : ℚ
  totalPnL : ℚ
  totalPnLPercent : ℚ
  averageWin : ℚ
  averageLoss : ℚ
  profitFactor : ℚ
  maxDrawdown : ℚ
  maxDrawdownPercent : ℚ
  averageHoldingPeriod : ℚ
  expectancy : ℚ
  recoveryFactor : ℚ
  calmarRatio : ℚ
deriving DecidableEq

/-- `calculateBacktestMetrics` from the futures backtest module (minus
the irrational `sharpeRatio`, see `BacktestMetrics`). -/
def calculateBacktestMetrics (trades : List BacktestTrade)
    (finalCapital initialCapital maxDrawdown : ℚ) : BacktestMetrics :=
  let totalTrades := trades.length
  let winningTrades := (trades.filter (fun t => 0 < t.pnl)).length
  let losingTrades := (trades.filter (fun t => t.pnl < 0)).length
  let winRate :=
    if 0 < totalTrades then ((winningTrades : ℚ) / totalTrades) * 100 else 0
  let totalPnL := finalCapital - initialCapital
  let totalPnLPercent := totalPnL / initialCapital * 100
  let totalWins := grossWins trades
  let totalLosses := grossLosses trades
  let averageWin :=
    if 0 < winningTrades then totalWins / winningTrades else 0
  let averageLoss :=
    if 0 < losingTrades then totalLosses / losingTrades else 0
  let profitFactor :=
    if 0 < totalLosses then totalWins / totalLosses
    else if 0 < totalWins then 999 else 0
  let averageHoldingPeriod :=
    if 0 < totalTrades then
      ((trades.map (·.holdingPeriod)).sum) / totalTrades
    else 0
  let expectancy :=
    if 0 < totalTrades then
      (winRate / 100) * averageWin - ((100 - winRate) / 100) * averageLoss
    else 0
  let recoveryFactor :=
    if 0 < maxDrawdown then totalPnLPercent / maxDrawdown else 0
  { totalTrades := totalTrades
    winningTrades := winningTrades
    losingTrades := losingTrades
    winRate := winRate
    totalPnL := totalPnL
    totalPnLPercent := totalPnLPercent
    averageWin := averageWin
    averageLoss := averageLoss
    profitFactor := profitFactor
    maxDrawdown := maxDrawdown
    maxDrawdownPercent := maxDrawdown
    averageHoldingPeriod := averageHoldingPeriod
    expectancy := expectancy
    recoveryFactor := recoveryFactor
    calmarRatio := recoveryFactor }

/-- `BacktestResult` from the futures backtest module.  The
`monthlyReturns` field (calendar year-month bucketing of the equity
curve through JavaScript `Date`) is consumed by no claim and omitted. -/
structure BacktestResult where
  config : BacktestConfig
  metrics : BacktestMetrics
  trades : List BacktestTrade
  equityCurve : List EquityPoint
  symbol : String
  startDate : ℤ
  endDate : ℤ

/-- `runFuturesBacktest` from the futures backtest module.  A series
shorter than 200 bars throws in the source; the embedding returns
`none`. -/
def runFuturesBacktest (contract : FuturesContract)
    (predict : List FuturesHistoricalData → FuturesPrediction)
    (historicalData : List FuturesHistoricalData)
    (cfg : BacktestConfig) : Option BacktestResult :=
  if historicalData.length < 200 then none
  else
    let init : RunState :=
      ⟨cfg.initialCapital, cfg.initialCapital, 0, [], [], []⟩
    let s := ((List.range historicalData.length).drop 200).foldl
      (barStep contract predict cfg historicalData) init
    let finalPrice := (historicalData.getLastD default).close
    let finalDate := (historicalData.getLastD default).timestamp
    let closeRest := s.openPositions.map
      (fun pos => mkTrade cfg pos finalDate .END_OF_DATA finalPrice)
    let trades := s.trades ++ closeRest
    let capital := s.capital + ((closeRest.map (·.pnl)).sum)
    some
      { config := cfg
        metrics :=
          calculateBacktestMetrics trades capital cfg.initialCapital s.maxDrawdown
        trades := trades
        equityCurve := s.equityCurve
        symbol := contract.symbol
        startDate := (historicalData.getD 200 default).timestamp
        endDate := finalDate }

/-! ## Definitions taken from the specification's words

These exist only to compare the specification's reading with the source
embedding above; they are deliberately written from the spec, not from
the code. -/

/-- Modelled from the spec: the changes over the `period` MOST-RECENT
price transitions, i.e. the successive differences of the trailing
`period + 1` prices.  The spec describes `calculateRSI` as averaging
gain/loss "over `period` most-recent transitions"; the source's loop
(see `rsiChanges`) walks the FIRST `period` transitions instead. -/
def recentChanges (prices : List ℚ) (period : ℕ) : List ℚ :=
  rsiChanges (prices.drop (prices.length - (period + 1))) period

/-- Modelled from the spec: average gain over the most-recent
transitions. -/
def recentAvgGain (prices : List ℚ) (period : ℕ) : ℚ :=
  ((recentChanges prices period).map (fun c => if 0 < c then c else 0)).sum / period

/-- Modelled from the spec: average loss over the most-recent
transitions. -/
def recentAvgLoss (prices : List ℚ) (period : ℕ) : ℚ :=
  ((recentChanges prices period).map (fun c => if 0 < c then 0 else -c)).sum / period

/-- Modelled from the spec: the RSI the spec sentence describes, using
the most-recent transitions. -/
def calculateRSIRecent (prices : List ℚ) (period : ℕ) : ℚ :=
  if prices.length < period + 1 then 50
  else if recentAvgLoss prices period = 0 then 100
  else 100 - 100 / (1 + recentAvgGain prices period / recentAvgLoss prices period)

/-! ## Predicates naming the exit conditions of the futures engine -/

/-- The fixed stop-loss condition of the exit cascade. -/
def fixedStopHit (cfg : BacktestConfig) (pos : OpenPosition) (price : ℚ) : Prop :=
  cfg.useStopLoss = true ∧
    ((pos.type = .LONG ∧ price ≤ pos.stopLoss) ∨
     (pos.type = .SHORT ∧ pos.stopLoss ≤ price))

/-- The trailing-stop condition of the exit cascade. -/
def trailingStopHit (cfg : BacktestConfig) (pos : OpenPosition) (price : ℚ) : Prop :=
  cfg.useTrailingStop = true ∧
    ((pos.type = .LONG ∧ price ≤ pos.trailingStop) ∨
     (pos.type = .SHORT ∧ pos.trailingStop ≤ price))

/-- The target condition of the exit cascade. -/
def targetHit (pos : OpenPosition) (price : ℚ) : Prop :=
  (pos.type = .LONG ∧ pos.target ≤ price) ∨
    (pos.type = .SHORT ∧ price ≤ pos.target)

instance (cfg : BacktestConfig) (pos : OpenPosition) (price : ℚ) :
    Decidable (fixedStopHit cfg pos price) := by
  unfold fixedStopHit; infer_instance

instance (cfg : BacktestConfig) (pos : OpenPosition) (price : ℚ) :
    Decidable (trailingStopHit cfg pos price) := by
  unfold trailingStopHit; infer_instance

instance (pos : OpenPosition) (price : ℚ) :
    Decidable (targetHit pos price) := by
  unfold targetHit; infer_instance

/-- Boolean check that a trade's exit reason is one of the three reasons
the engine can actually assign (everything except the declared-but-dead
`SIGNAL`). -/
def exitReasonOK (t : BacktestTrade) : Bool :=
  (t.exitReason != .SIGNAL) &&
    ((t.exitReason == .TARGET) || (t.exitReason == .STOP_LOSS) ||
      (t.exitReason == .END_OF_DATA))

/-- Whether every trade of a (possibly failed) backtest run has an
admissible exit reason. -/
def resultReasonsOK : Option BacktestResult → Bool
  | none => true
  | some r => r.trades.all exitReasonOK

/-! # Theorems -/

/-- Every term of the `gains` accumulator is nonnegative. -/
theorem rsiGains_nonneg (prices : List ℚ) (period : ℕ) :
    0 ≤ rsiGains prices period := by
  apply List.sum_nonneg
  intro x hx
  simp only [rsiGains, List.mem_map] at hx
  obtain ⟨c, -, rfl⟩ := hx
  split_ifs with h
  · exact le_of_lt h
  · exact le_refl 0

/-- Every term of the `losses` accumulator is nonnegative. -/
theorem rsiLosses_nonneg (prices : List ℚ) (period : ℕ) :
    0 ≤ rsiLosses prices period := by
  apply List.sum_nonneg
  intro x hx
  simp only [rsiLosses, List.mem_map] at hx
  obtain ⟨c, -, rfl⟩ := hx
  split_ifs with h
  · exact le_refl 0
  · linarith [not_lt.mp h]

/-- C10: on the empty price list the short-history fallback
`prices[prices.length - 1] || 0` of `calculateEMA` and `calculateSMA`
defaults to `0` (there is no last element), so both indicators are total
with value `0` there. -/
theorem ema_sma_empty_zero (period : ℕ) (hp : 1 ≤ period) :
    calculateEMA [] period = 0 ∧ calculateSMA [] period = 0 := by
  constructor
  · unfold calculateEMA
    rw [if_pos (by simpa using hp)]
    rfl
  · unfold calculateSMA
    rw [if_pos (by simpa using hp)]
    rfl

/-- C10 witness. -/
theorem ema_sma_empty_zero_witness :
    calculateEMA [] 14 = 0 ∧ calculateSMA [] 14 = 0 :=
  ema_sma_empty_zero 14 (by norm_num)

/-- C7 counterexample: a ledger holding a single losing trade has
`profitFactor = 0` (namely `0 / grossLosses`) although its gross losses
are not zero, so "profitFactor equals 0 if and only if grossWins == 0
and grossLosses == 0" fails in the only-if direction. -/
theorem profitFactor_zero_with_losses :
    (calculateBacktestMetrics
      [{ entryDate := 0, exitDate := 0, symbol := "X", type := .LONG,
         entryPrice := 100, exitPrice := 95, quantity := 1, pnl := -5,
         pnlPercent := -5, commission := 0, exitReason := .STOP_LOSS,
         holdingPeriod := 0 }] 0 1 0).profitFactor = 0 ∧
    grossLosses
      [{ entryDate := 0, exitDate := 0, symbol := "X", type := .LONG,
         entryPrice := 100, exitPrice := 95, quantity := 1, pnl := -5,
         pnlPercent := -5, commission := 0, exitReason := .STOP_LOSS,
         holdingPeriod := 0 }] ≠ 0 := by
  constructor
  · norm_num [calculateBacktestMetrics, grossWins, grossLosses, List.filter]
  · norm_num [grossLosses, List.filter]

/-- C7 (amended): `profitFactor` equals `grossWins / grossLosses` when
the gross losses are positive, equals the sentinel `999` when the gross
losses are zero and gross wins are positive, and equals `0` when both
are zero; the degenerate denominator is resolved locally, never
propagated as an error.  (The converse directions of the spec's "iff"
fail: the quotient itself can coincide with `0` or `999`.) -/
theorem profitFactor_spec (trades : List BacktestTrade)
    (finalCapital initialCapital maxDrawdown : ℚ) :
    (0 < grossLosses trades →
      (calculateBacktestMetrics trades finalCapital initialCapital
        maxDrawdown).profitFactor = grossWins trades / grossLosses trades) ∧
    (grossLosses trades = 0 → 0 < grossWins trades →
      (calculateBacktestMetrics trades finalCapital initialCapital
        maxDrawdown).profitFactor = 999) ∧
    (grossWins trades = 0 → grossLosses trades = 0 →
      (calculateBacktestMetrics trades finalCapital initialCapital
        maxDrawdown).profitFactor = 0) := by
  refine ⟨fun h => ?_, fun h hw => ?_, fun hw h => ?_⟩
  · simp only [calculateBacktestMetrics]
    rw [if_pos h]
  · simp only [calculateBacktestMetrics]
    rw [if_neg (by rw [h]; exact lt_irrefl 0), if_pos hw]
  · simp only [calculateBacktestMetrics]
    rw [if_neg (by rw [h]; exact lt_irrefl 0),
      if_neg (by rw [hw]; exact lt_irrefl 0)]

/-- C7 witness. -/
theorem profitFactor_spec_witness :
    (calculateBacktestMetrics [] 0 1 0).profitFactor = 0 :=
  (profitFactor_spec [] 0 1 0).2.2 (by decide) (by decide)

/-- C1 counterexample: `calculateRSI` does NOT average over the `period`
most-recent transitions.  On `[0, 10, 0]` with period 1 the most recent
transition is a pure loss (average loss `10`), so the spec's reading
yields RSI `0` and forbids the value `100`; the source walks the first
transition (a pure gain) and returns `100`. -/
theorem calculateRSI_not_recent :
    calculateRSI [0, 10, 0] 1 = 100 ∧
    recentAvgLoss [0, 10, 0] 1 = 10 ∧
    calculateRSIRecent [0, 10, 0] 1 = 0 := by
  refine ⟨?_, ?_, ?_⟩
  · norm_num [calculateRSI, rsiGains, rsiLosses, rsiChanges, List.range_succ]
  · norm_num [recentAvgLoss, recentChanges, rsiChanges, List.range_succ]
  · norm_num [calculateRSIRecent, recentAvgLoss, recentAvgGain,
      recentChanges, rsiChanges, List.range_succ]

/-- C1 (amended): for every price list and positive period,
`calculateRSI` averages gain and loss over the FIRST `period` price
transitions (`prices[0] .. prices[period]`) and returns
`100 - 100/(1 + avgGain/avgLoss)`; it returns 50 when the list has fewer
than `period + 1` elements, returns 100 exactly when that average loss
is zero, and its result always lies in `[0, 100]`. -/
theorem calculateRSI_correct (prices : List ℚ) (period : ℕ)
    (hp : 1 ≤ period) :
    (prices.length < period + 1 → calculateRSI prices period = 50) ∧
    (period + 1 ≤ prices.length →
      ((rsiLosses prices period = 0 → calculateRSI prices period = 100) ∧
       (rsiLosses prices period ≠ 0 →
         calculateRSI prices period =
           100 - 100 / (1 + (rsiGains prices period / period) /
             (rsiLosses prices period / period)) ∧
         calculateRSI prices period < 100))) ∧
    0 ≤ calculateRSI prices period ∧ calculateRSI prices period ≤ 100 := by
  have hg := rsiGains_nonneg prices period
  have hl := rsiLosses_nonneg prices period
  have hper : (0 : ℚ) < (period : ℚ) := by exact_mod_cast hp
  by_cases hlen : prices.length < period + 1
  · refine ⟨fun _ => ?_, fun h => absurd h (by omega), ?_, ?_⟩ <;>
      simp only [calculateRSI, if_pos hlen] <;> norm_num
  · have hlen' : ¬ prices.length < period + 1 := hlen
    by_cases hz : rsiLosses prices period = 0
    · have hz' : rsiLosses prices period / (period : ℚ) = 0 := by
        rw [hz]; exact zero_div _
      refine ⟨fun h => absurd h hlen', fun _ => ⟨fun _ => ?_, fun h => absurd hz h⟩, ?_, ?_⟩ <;>
        simp only [calculateRSI, if_neg hlen', hz', if_pos rfl] <;> norm_num
    · have hz' : rsiLosses prices period / (period : ℚ) ≠ 0 :=
        div_ne_zero hz (ne_of_gt hper)
      have hLpos : 0 < rsiLosses prices period / (period : ℚ) :=
        lt_of_le_of_ne (div_nonneg hl (le_of_lt hper)) (Ne.symm hz')
      have hGpos : 0 ≤ rsiGains prices period / (period : ℚ) :=
        div_nonneg hg (le_of_lt hper)
      have hrs : 0 ≤ (rsiGains prices period / (period : ℚ)) /
          (rsiLosses prices period / (period : ℚ)) :=
        div_nonneg hGpos (le_of_lt hLpos)
      have hval : calculateRSI prices period =
          100 - 100 / (1 + (rsiGains prices period / period) /
            (rsiLosses prices period / period)) := by
        simp only [calculateRSI, if_neg hlen', if_neg hz']
      have hdpos : 0 < (100 : ℚ) / (1 + (rsiGains prices period / period) /
          (rsiLosses prices period / period)) :=
        div_pos (by norm_num) (by linarith)
      have hdle : (100 : ℚ) / (1 + (rsiGains prices period / period) /
          (rsiLosses prices period / period)) ≤ 100 :=
        div_le_self (by norm_num) (by linarith)
      refine ⟨fun h => absurd h hlen',
        fun _ => ⟨fun h => absurd h hz, fun _ => ⟨hval, ?_⟩⟩, ?_, ?_⟩ <;>
        rw [hval] <;> linarith

/-- C1 witness. -/
theorem calculateRSI_correct_witness :
    (0 : ℚ) ≤ calculateRSI [1, 2] 1 ∧ calculateRSI [1, 2] 1 ≤ 100 :=
  ⟨(calculateRSI_correct [1, 2] 1 (by norm_num)).2.2.1,
   (calculateRSI_correct [1, 2] 1 (by norm_num)).2.2.2⟩

/-- The repair pass restores both fast-below-slow invariants whenever the
slow periods are at least 1 (natural floor-halving of a positive slow
value lands strictly below it). -/
theorem repair_lt (q : StrategyParams) (h1 : 1 ≤ q.smaSlowPeriod)
    (h2 : 1 ≤ q.macdSlow) :
    (repair q).smaFastPeriod < (repair q).smaSlowPeriod ∧
    (repair q).macdFast < (repair q).macdSlow := by
  by_cases ha : q.smaSlowPeriod ≤ q.smaFastPeriod <;>
    by_cases hb : q.macdSlow ≤ q.macdFast <;>
      simp [repair, ha, hb] <;> omega

/-- C6 counterexample: for the input with `smaSlowPeriod = 0` (and no
gene mutated), the repair step sets `smaFastPeriod := 0 / 2 = 0`, which
is not strictly below the slow period — `Math.floor(0 / 2) = 0` is pure
integer arithmetic, so "for any StrategyParams" fails as stated. -/
theorem mutate_invariant_cex :
    ¬((mutate ⟨none, none, none, none, none, none, none, none, none, none⟩
        { rsiPeriod := 14, rsiOverbought := 70, rsiOversold := 30,
          macdFast := 12, macdSlow := 26, macdSignal := 9,
          smaFastPeriod := 20, smaSlowPeriod := 0,
          volatilityPeriod := 20, volumeThreshold := 3 / 2 }).smaFastPeriod <
      (mutate ⟨none, none, none, none, none, none, none, none, none, none⟩
        { rsiPeriod := 14, rsiOverbought := 70, rsiOversold := 30,
          macdFast := 12, macdSlow := 26, macdSignal := 9,
          smaFastPeriod := 20, smaSlowPeriod := 0,
          volatilityPeriod := 20, volumeThreshold := 3 / 2 }).smaSlowPeriod) := by
  simp [mutate, repair]

/-- C6 (amended): for any input params whose slow periods are at least 1
(true of the default params, of every randomly generated individual, and
of every crossover of such, whose slow genes lie in 21–50 and 51–200),
every outcome of `mutate`'s random gene choices satisfies
`smaFastPeriod < smaSlowPeriod` and `macdFast < macdSlow`; and the
repair step is idempotent: on params already satisfying the invariant it
changes nothing. -/
theorem mutate_invariant (c : MutateChoice) (p : StrategyParams)
    (h1 : 1 ≤ p.smaSlowPeriod) (h2 : 1 ≤ p.macdSlow) :
    (mutate c p).smaFastPeriod < (mutate c p).smaSlowPeriod ∧
    (mutate c p).macdFast < (mutate c p).macdSlow ∧
    (∀ q : StrategyParams, q.smaFastPeriod < q.smaSlowPeriod →
      q.macdFast < q.macdSlow → repair q = q) := by
  have hmain : (mutate c p).smaFastPeriod < (mutate c p).smaSlowPeriod ∧
      (mutate c p).macdFast < (mutate c p).macdSlow := by
    unfold mutate
    apply repair_lt
    · cases hc : c.smaSlowPeriod <;> simp [hc, randInt] <;> omega
    · cases hc : c.macdSlow <;> simp [hc, randInt] <;> omega
  refine ⟨hmain.1, hmain.2, fun q hq1 hq2 => ?_⟩
  simp only [repair]
  rw [if_neg (not_le.mpr hq1), if_neg (not_le.mpr hq2)]

/-- C6 witness. -/
theorem mutate_invariant_witness :
    (mutate ⟨none, none, none, none, none, none, none, none, none, none⟩
        DEFAULT_PARAMS).smaFastPeriod <
      (mutate ⟨none, none, none, none, none, none, none, none, none, none⟩
        DEFAULT_PARAMS).smaSlowPeriod :=
  (mutate_invariant _ DEFAULT_PARAMS (by decide) (by decide)).1

/-- C4: for every population of at least two individuals and every
outcome of the random draws, `evolvePopulation` returns exactly
`POPULATION_SIZE` individuals whose first two are the input's first two
unchanged (elitism), while every later individual is a fresh offspring
with fitness, accuracy and profit all zero. -/
theorem evolvePopulation_spec (ch : ℕ → OffspringChoice)
    (pop : List Individual) (h : 2 ≤ pop.length) :
    (evolvePopulation ch pop).length = POPULATION_SIZE ∧
    (evolvePopulation ch pop).take 2 = pop.take 2 ∧
    ∀ ind ∈ (evolvePopulation ch pop).drop 2,
      ind.fitness = 0 ∧ ind.accuracy = 0 ∧ ind.profit = 0 := by
  obtain ⟨p0, rest, rfl⟩ : ∃ p0 rest, pop = p0 :: rest := by
    cases pop with
    | nil => simp at h
    | cons a t => exact ⟨a, t, rfl⟩
  obtain ⟨p1, rest1, rfl⟩ : ∃ p1 rest1, rest = p1 :: rest1 := by
    cases rest with
    | nil => simp at h
    | cons a t => exact ⟨a, t, rfl⟩
  refine ⟨?_, ?_, ?_⟩
  · simp [evolvePopulation, POPULATION_SIZE]
  · simp [evolvePopulation]
  · intro ind hind
    simp only [evolvePopulation, List.getD_cons_zero, List.getD_cons_succ,
      List.cons_append, List.nil_append, List.drop_succ_cons,
      List.drop_zero, List.mem_map] at hind
    obtain ⟨k, -, rfl⟩ := hind
    exact ⟨rfl, rfl, rfl⟩

/-- C4 witness. -/
theorem evolvePopulation_spec_witness :
    (evolvePopulation
      (fun _ => ⟨0, 0, ⟨true, true, true, true, true, true, true, true, true, true⟩,
        ⟨none, none, none, none, none, none, none, none, none, none⟩⟩)
      [default, default]).length = POPULATION_SIZE :=
  (evolvePopulation_spec _ _ (by simp)).1

/-- C3: `evaluatePopulation` evaluates exactly the individuals whose
stored fitness is zero, giving fitness = backtest profit, lowered by 50
when the backtest accuracy is below 40 and by 20 when the trade count is
below 5 (cumulatively), and copying the backtest's accuracy and profit;
an individual with non-zero fitness passes through unchanged; the
returned (sorted) population consists of exactly the per-individual
evaluation results. -/
theorem evaluatePopulation_spec (candles : List CandleData)
    (pop : List Individual) (ind : Individual) :
    (ind.fitness = 0 → evalIndividual candles ind =
      { params := ind.params
        fitness := (backtestStrategy candles ind.params).profit
          - (if (backtestStrategy candles ind.params).accuracy < 40 then 50 else 0)
          - (if (backtestStrategy candles ind.params).trades < 5 then 20 else 0)
        accuracy := (backtestStrategy candles ind.params).accuracy
        profit := (backtestStrategy candles ind.params).profit }) ∧
    (ind.fitness ≠ 0 → evalIndividual candles ind = ind) ∧
    (∀ x, x ∈ evaluatePopulation pop candles ↔
      x ∈ pop.map (evalIndividual candles)) := by
  refine ⟨fun h0 => ?_, fun hne => ?_, fun x => ?_⟩
  · simp only [evalIndividual, h0, ne_eq, not_true_eq_false, if_false,
      ite_false, not_false_eq_true]
  · simp only [evalIndividual, if_pos hne]
  · simp only [evaluatePopulation]
    exact (List.mergeSort_perm _ _).mem_iff

/-- C3 witness. -/
theorem evaluatePopulation_spec_witness :
    evalIndividual [] ⟨DEFAULT_PARAMS, 0, 0, 0⟩ =
      ⟨DEFAULT_PARAMS, -70, 0, 0⟩ := by
  have h := (evaluatePopulation_spec [] [] ⟨DEFAULT_PARAMS, 0, 0, 0⟩).1 rfl
  rw [h]
  norm_num [backtestStrategy, btFinal, btInit]

/-- The per-bar position sweep keeps, in order, exactly the
trailing-updated positions whose exit cascade matches nothing. -/
theorem processPositions_survivors (cfg : BacktestConfig) (price : ℚ)
    (date : ℤ) (positions : List OpenPosition) :
    (processPositions cfg price date positions).1 =
      (positions.map (updateTrailing cfg price)).filter
        (fun p => (checkExit cfg p price).isNone) := by
  induction positions with
  | nil => rfl
  | cons p ps ih =>
    simp only [processPositions, List.foldr_cons, List.map_cons,
      List.filter_cons] at *
    cases hce : checkExit cfg (updateTrailing cfg price p) price with
    | none => simp [hce, ih]
    | some rp => simp [hce, ih]

/-- C2: the exit cascade of `runFuturesBacktest` checks, in order, fixed
stop-loss, trailing stop, then target; the first match fixes the fill: a
long fixed-stop exit fills at `stopLoss - slippage` (a short at
`stopLoss + slippage`), a trailing-stop exit at the trailing stop
adjusted by slippage against the position the same way, a target exit
exactly at the target with no slippage; and a position matching no
condition remains open (the per-bar sweep keeps exactly the positions
whose cascade returns nothing). -/
theorem checkExit_precedence (cfg : BacktestConfig) (pos : OpenPosition)
    (price : ℚ) :
    (cfg.useStopLoss = true → pos.type = .LONG → price ≤ pos.stopLoss →
      checkExit cfg pos price = some (.STOP_LOSS, pos.stopLoss - cfg.slippage)) ∧
    (cfg.useStopLoss = true → pos.type = .SHORT → pos.stopLoss ≤ price →
      checkExit cfg pos price = some (.STOP_LOSS, pos.stopLoss + cfg.slippage)) ∧
    (¬ fixedStopHit cfg pos price → cfg.useTrailingStop = true →
      pos.type = .LONG → price ≤ pos.trailingStop →
      checkExit cfg pos price = some (.STOP_LOSS, pos.trailingStop - cfg.slippage)) ∧
    (¬ fixedStopHit cfg pos price → cfg.useTrailingStop = true →
      pos.type = .SHORT → pos.trailingStop ≤ price →
      checkExit cfg pos price = some (.STOP_LOSS, pos.trailingStop + cfg.slippage)) ∧
    (¬ fixedStopHit cfg pos price → ¬ trailingStopHit cfg pos price →
      pos.type = .LONG → pos.target ≤ price →
      checkExit cfg pos price = some (.TARGET, pos.target)) ∧
    (¬ fixedStopHit cfg pos price → ¬ trailingStopHit cfg pos price →
      pos.type = .SHORT → price ≤ pos.target →
      checkExit cfg pos price = some (.TARGET, pos.target)) ∧
    (¬ fixedStopHit cfg pos price → ¬ trailingStopHit cfg pos price →
      ¬ targetHit pos price → checkExit cfg pos price = none) ∧
    (∀ (positions : List OpenPosition) (date : ℤ),
      (processPositions cfg price date positions).1 =
        (positions.map (updateTrailing cfg price)).filter
          (fun p => (checkExit cfg p price).isNone)) := by
  refine ⟨?_, ?_, ?_, ?_, ?_, ?_, ?_,
    fun positions date => processPositions_survivors cfg price date positions⟩
  · intro hu hl hle
    unfold checkExit
    rw [if_pos ⟨hu, hl, hle⟩]
  · intro hu hs hle
    unfold checkExit
    rw [if_neg (fun h => by simp [hs] at h), if_pos ⟨hu, hs, hle⟩]
  · intro hfs ht hl hle
    have h1 : ¬(cfg.useStopLoss = true ∧ pos.type = .LONG ∧ price ≤ pos.stopLoss) :=
      fun ⟨a, b, c⟩ => hfs ⟨a, Or.inl ⟨b, c⟩⟩
    have h2 : ¬(cfg.useStopLoss = true ∧ pos.type = .SHORT ∧ pos.stopLoss ≤ price) :=
      fun ⟨a, b, c⟩ => hfs ⟨a, Or.inr ⟨b, c⟩⟩
    unfold checkExit
    rw [if_neg h1, if_neg h2, if_pos ⟨ht, hl, hle⟩]
  · intro hfs ht hs hle
    have h1 : ¬(cfg.useStopLoss = true ∧ pos.type = .LONG ∧ price ≤ pos.stopLoss) :=
      fun ⟨a, b, c⟩ => hfs ⟨a, Or.inl ⟨b, c⟩⟩
    have h2 : ¬(cfg.useStopLoss = true ∧ pos.type = .SHORT ∧ pos.stopLoss ≤ price) :=
      fun ⟨a, b, c⟩ => hfs ⟨a, Or.inr ⟨b, c⟩⟩
    have h3 : ¬(cfg.useTrailingStop = true ∧ pos.type = .LONG ∧ price ≤ pos.trailingStop) :=
      fun ⟨a, b, _⟩ => by simp [hs] at b
    unfold checkExit
    rw [if_neg h1, if_neg h2, if_neg h3, if_pos ⟨ht, hs, hle⟩]
  · intro hfs htr hl hge
    have h1 : ¬(cfg.useStopLoss = true ∧ pos.type = .LONG ∧ price ≤ pos.stopLoss) :=
      fun ⟨a, b, c⟩ => hfs ⟨a, Or.inl ⟨b, c⟩⟩
    have h2 : ¬(cfg.useStopLoss = true ∧ pos.type = .SHORT ∧ pos.stopLoss ≤ price) :=
      fun ⟨a, b, c⟩ => hfs ⟨a, Or.inr ⟨b, c⟩⟩
    have h3 : ¬(cfg.useTrailingStop = true ∧ pos.type = .LONG ∧ price ≤ pos.trailingStop) :=
      fun ⟨a, b, c⟩ => htr ⟨a, Or.inl ⟨b, c⟩⟩
    have h4 : ¬(cfg.useTrailingStop = true ∧ pos.type = .SHORT ∧ pos.trailingStop ≤ price) :=
      fun ⟨a, b, c⟩ => htr ⟨a, Or.inr ⟨b, c⟩⟩
    unfold checkExit
    rw [if_neg h1, if_neg h2, if_neg h3, if_neg h4, if_pos ⟨hl, hge⟩]
  · intro hfs htr hs hle
    have h1 : ¬(cfg.useStopLoss = true ∧ pos.type = .LONG ∧ price ≤ pos.stopLoss) :=
      fun ⟨a, b, c⟩ => hfs ⟨a, Or.inl ⟨b, c⟩⟩
    have h2 : ¬(cfg.useStopLoss = true ∧ pos.type = .SHORT ∧ pos.stopLoss ≤ price) :=
      fun ⟨a, b, c⟩ => hfs ⟨a, Or.inr ⟨b, c⟩⟩
    have h3 : ¬(cfg.useTrailingStop = true ∧ pos.type = .LONG ∧ price ≤ pos.trailingStop) :=
      fun ⟨a, b, c⟩ => htr ⟨a, Or.inl ⟨b, c⟩⟩
    have h4 : ¬(cfg.useTrailingStop = true ∧ pos.type = .SHORT ∧ pos.trailingStop ≤ price) :=
      fun ⟨a, b, c⟩ => htr ⟨a, Or.inr ⟨b, c⟩⟩
    have h5 : ¬(pos.type = .LONG ∧ pos.target ≤ price) :=
      fun ⟨b, _⟩ => by simp [hs] at b
    unfold checkExit
    rw [if_neg h1, if_neg h2, if_neg h3, if_neg h4, if_neg h5,
      if_pos ⟨hs, hle⟩]
  · intro hfs htr htg
    have h1 : ¬(cfg.useStopLoss = true ∧ pos.type = .LONG ∧ price ≤ pos.stopLoss) :=
      fun ⟨a, b, c⟩ => hfs ⟨a, Or.inl ⟨b, c⟩⟩
    have h2 : ¬(cfg.useStopLoss = true ∧ pos.type = .SHORT ∧ pos.stopLoss ≤ price) :=
      fun ⟨a, b, c⟩ => hfs ⟨a, Or.inr ⟨b, c⟩⟩
    have h3 : ¬(cfg.useTrailingStop = true ∧ pos.type = .LONG ∧ price ≤ pos.trailingStop) :=
      fun ⟨a, b, c⟩ => htr ⟨a, Or.inl ⟨b, c⟩⟩
    have h4 : ¬(cfg.useTrailingStop = true ∧ pos.type = .SHORT ∧ pos.trailingStop ≤ price) :=
      fun ⟨a, b, c⟩ => htr ⟨a, Or.inr ⟨b, c⟩⟩
    have h5 : ¬(pos.type = .LONG ∧ pos.target ≤ price) :=
      fun ⟨b, c⟩ => htg (Or.inl ⟨b, c⟩)
    have h6 : ¬(pos.type = .SHORT ∧ price ≤ pos.target) :=
      fun ⟨b, c⟩ => htg (Or.inr ⟨b, c⟩)
    unfold checkExit
    rw [if_neg h1, if_neg h2, if_neg h3, if_neg h4, if_neg h5, if_neg h6]

/-- C2 witness. -/
theorem checkExit_precedence_witness :
    checkExit DEFAULT_BACKTEST_CONFIG
      ⟨0, "SYM", .LONG, 100, 1, 95, 110, 97⟩ 94 =
      some (.STOP_LOSS,
        (⟨0, "SYM", .LONG, 100, 1, 95, 110, 97⟩ : OpenPosition).stopLoss -
          DEFAULT_BACKTEST_CONFIG.slippage) :=
  (checkExit_precedence DEFAULT_BACKTEST_CONFIG
    ⟨0, "SYM", .LONG, 100, 1, 95, 110, 97⟩ 94).1 rfl rfl (by norm_num)

/-- C9: the optimizer's fitness backtest is single-position and
long-only: the position flag only ever takes the values 0 (flat) and 1
(long); a BUY opens a long only when flat, a BUY while long changes
nothing, a SELL while flat changes nothing (no short is ever opened), a
SELL while long closes the long and counts the trade, and a HOLD changes
nothing. -/
theorem backtestStrategy_longOnly (candles : List CandleData)
    (params : StrategyParams) :
    (∀ (s : BTState) (i : ℕ), s.position = 0 ∨ s.position = 1 →
      (btStep candles params s i).position = 0 ∨
        (btStep candles params s i).position = 1) ∧
    (∀ (s : BTState) (i : ℕ),
      generateSignal (extractFeatures (candles.take (i + 1)) params) params = .BUY →
      s.position = 0 →
      btStep candles params s i =
        { s with position := 1, entryPrice := (candles.getD i default).close }) ∧
    (∀ (s : BTState) (i : ℕ),
      generateSignal (extractFeatures (candles.take (i + 1)) params) params = .BUY →
      s.position = 1 → btStep candles params s i = s) ∧
    (∀ (s : BTState) (i : ℕ),
      generateSignal (extractFeatures (candles.take (i + 1)) params) params = .SELL →
      s.position = 0 → btStep candles params s i = s) ∧
    (∀ (s : BTState) (i : ℕ),
      generateSignal (extractFeatures (candles.take (i + 1)) params) params = .SELL →
      s.position = 1 → btStep candles params s i =
        { s with
            balance := s.balance *
              (1 + ((candles.getD i default).close - s.entryPrice) / s.entryPrice)
            position := 0
            wins := s.wins +
              if 0 < ((candles.getD i default).close - s.entryPrice) / s.entryPrice
              then 1 else 0
            totalTrades := s.totalTrades + 1 }) ∧
    (∀ (s : BTState) (i : ℕ),
      generateSignal (extractFeatures (candles.take (i + 1)) params) params = .HOLD →
      btStep candles params s i = s) ∧
    ((btFinal candles params).position = 0 ∨
      (btFinal candles params).position = 1) := by
  have hstep : ∀ (s : BTState) (i : ℕ), s.position = 0 ∨ s.position = 1 →
      (btStep candles params s i).position = 0 ∨
        (btStep candles params s i).position = 1 := by
    intro s i h
    simp only [btStep]
    split_ifs <;> first
      | (left; rfl)
      | (right; rfl)
      | exact h
  refine ⟨hstep, ?_, ?_, ?_, ?_, ?_, ?_⟩
  · intro s i hsig hpos
    simp only [btStep]
    rw [if_pos ⟨hsig, hpos⟩]
  · intro s i hsig hpos
    simp only [btStep]
    rw [if_neg (fun h => by rw [hpos] at h; exact one_ne_zero h.2),
      if_neg (fun h => by rw [hsig] at h; exact Signal.noConfusion h.1)]
  · intro s i hsig hpos
    simp only [btStep]
    rw [if_neg (fun h => by rw [hsig] at h; exact Signal.noConfusion h.1),
      if_neg (fun h => by rw [hpos] at h; exact zero_ne_one h.2)]
  · intro s i hsig hpos
    simp only [btStep]
    rw [if_neg (fun h => by rw [hsig] at h; exact Signal.noConfusion h.1),
      if_pos ⟨hsig, hpos⟩]
  · intro s i hsig
    simp only [btStep]
    rw [if_neg (fun h => by rw [hsig] at h; exact Signal.noConfusion h.1),
      if_neg (fun h => by rw [hsig] at h; exact Signal.noConfusion h.1)]
  · have hfold : ∀ (l : List ℕ) (s : BTState),
        s.position = 0 ∨ s.position = 1 →
        ((l.foldl (btStep candles params) s).position = 0 ∨
          (l.foldl (btStep candles params) s).position = 1) := by
      intro l
      induction l with
      | nil => intro s h; exact h
      | cons a t ih =>
        intro s h
        exact ih _ (hstep s a h)
    have h0 := hfold ((List.range candles.length).drop (minDataPoints params))
      btInit (Or.inl rfl)
    simp only [btFinal]
    split_ifs <;> simpa using h0

/-- C9 witness. -/
theorem backtestStrategy_longOnly_witness :
    (btStep [] DEFAULT_PARAMS btInit 0).position = 0 ∨
      (btStep [] DEFAULT_PARAMS btInit 0).position = 1 :=
  (backtestStrategy_longOnly [] DEFAULT_PARAMS).1 btInit 0 (Or.inl rfl)

/-- The last-element-or-default of a nonempty list is a member. -/
theorem getLastD_mem {α : Type} (l : List α) (d : α) (h : l ≠ []) :
    l.getLastD d ∈ l := by
  induction l with
  | nil => exact absurd rfl h
  | cons a t ih =>
    cases t with
    | nil => simp
    | cons b u => simpa using Or.inr (ih (by simp))

/-- Sum of a list all of whose elements are `v`. -/
theorem sum_all_eq {v : ℚ} (l : List ℚ) (h : ∀ x ∈ l, x = v) :
    l.sum = l.length * v := by
  induction l with
  | nil => simp
  | cons a t ih =>
    have ha := h a (by simp)
    have ht := ih (fun x hx => h x (by simp [hx]))
    simp only [List.sum_cons, List.length_cons, ha, ht]
    push_cast
    ring

/-- The EMA recurrence is stationary on a constant tail. -/
theorem foldl_ema_const {v m : ℚ} (l : List ℚ) (h : ∀ x ∈ l, x = v) :
    l.foldl (fun ema price => (price - ema) * m + ema) v = v := by
  induction l with
  | nil => rfl
  | cons a t ih =>
    have ha := h a (by simp)
    have step : (a - v) * m + v = v := by rw [ha]; ring
    simpa [step] using ih (fun x hx => h x (by simp [hx]))

/-- An in-range `getD` of an all-`v` list is `v`. -/
theorem getD_all_eq {v : ℚ} (l : List ℚ) (i : ℕ) (h : ∀ x ∈ l, x = v)
    (hi : i < l.length) : l.getD i 0 = v := by
  rw [List.getD_eq_getElem l 0 hi]
  exact h _ (List.getElem_mem hi)

/-- `calculateEMA` of a nonempty constant list is the constant. -/
theorem calculateEMA_const {v : ℚ} (l : List ℚ) (p : ℕ) (hp : 1 ≤ p)
    (hne : l ≠ []) (h : ∀ x ∈ l, x = v) : calculateEMA l p = v := by
  unfold calculateEMA
  split_ifs with hl
  · exact h _ (getLastD_mem l 0 hne)
  · have hple : p ≤ l.length := not_lt.mp hl
    have hp0 : ((p : ℚ)) ≠ 0 := Nat.cast_ne_zero.mpr (by omega)
    have hsum : (l.take p).sum = (p : ℚ) * v := by
      rw [sum_all_eq (l.take p) (fun x hx => h x (List.mem_of_mem_take hx))]
      rw [List.length_take, min_eq_left hple]
    rw [hsum, mul_div_cancel_left₀ v hp0]
    exact foldl_ema_const (l.drop p) (fun x hx => h x (List.mem_of_mem_drop hx))

/-- `calculateSMA` of a nonempty constant list is the constant. -/
theorem calculateSMA_const {v : ℚ} (l : List ℚ) (p : ℕ) (hp : 1 ≤ p)
    (hne : l ≠ []) (h : ∀ x ∈ l, x = v) : calculateSMA l p = v := by
  unfold calculateSMA
  split_ifs with hl
  · exact h _ (getLastD_mem l 0 hne)
  · have hple : p ≤ l.length := not_lt.mp hl
    have hp0 : ((p : ℚ)) ≠ 0 := Nat.cast_ne_zero.mpr (by omega)
    have hsum : (l.drop (l.length - p)).sum = (p : ℚ) * v := by
      rw [sum_all_eq (l.drop (l.length - p))
        (fun x hx => h x (List.mem_of_mem_drop hx))]
      rw [List.length_drop]
      congr 2
      omega
    rw [hsum, mul_div_cancel_left₀ v hp0]

/-- `calculateRSI` of a constant list is neutral or 100 (all changes are
zero, so the average loss is zero). -/
theorem calculateRSI_const {v : ℚ} (l : List ℚ) (p : ℕ)
    (h : ∀ x ∈ l, x = v) :
    calculateRSI l p = 50 ∨ calculateRSI l p = 100 := by
  by_cases hl : l.length < p + 1
  · left; simp only [calculateRSI, if_pos hl]
  · right
    have hzero : rsiLosses l p = 0 := by
      apply List.sum_eq_zero
      intro x hx
      obtain ⟨c, hc, rfl⟩ := List.mem_map.mp hx
      simp only [rsiChanges, List.mem_map, List.mem_range] at hc
      obtain ⟨i, hi, rfl⟩ := hc
      have e1 : l.getD (i + 1) 0 = v := getD_all_eq l (i + 1) h (by omega)
      have e2 : l.getD i 0 = v := getD_all_eq l i h (by omega)
      rw [e1, e2, sub_self]
      simp
    simp [calculateRSI, hl, hzero]

/-- On a flat (all-closes-equal) candle window with positive lookback
periods, the extracted features satisfy: MACD and its signal both zero,
fast and slow SMA equal, price change zero. -/
theorem extractFeatures_flat {v : ℚ} (candles : List CandleData)
    (params : StrategyParams)
    (hflat : ∀ c ∈ candles, c.close = v)
    (h1 : 1 ≤ params.macdFast) (h2 : 1 ≤ params.macdSlow)
    (h3 : 1 ≤ params.smaFastPeriod) (h4 : 1 ≤ params.smaSlowPeriod) :
    (extractFeatures candles params).macd = 0 ∧
    (extractFeatures candles params).macdSignal = 0 ∧
    (extractFeatures candles params).smaFast =
      (extractFeatures candles params).smaSlow ∧
    (extractFeatures candles params).priceChange = 0 := by
  have hC : ∀ x ∈ candles.map (·.close), x = v := by
    intro x hx
    obtain ⟨c, hc, rfl⟩ := List.mem_map.mp hx
    exact hflat c hc
  have hmacd : calculateMACD (candles.map (·.close)) params.macdFast
      params.macdSlow params.macdSignal = (0, 0) := by
    unfold calculateMACD
    split_ifs with hl
    · rfl
    · have hne : candles.map (·.close) ≠ [] := by
        intro he
        rw [he] at hl
        simp at hl
        omega
      rw [calculateEMA_const _ _ h1 hne hC, calculateEMA_const _ _ h2 hne hC]
      norm_num
  have hsma : calculateSMA (candles.map (·.close)) params.smaFastPeriod =
      calculateSMA (candles.map (·.close)) params.smaSlowPeriod := by
    cases hc : candles.map (·.close) with
    | nil =>
      unfold calculateSMA
      rw [if_pos (by simp; omega), if_pos (by simp; omega)]
    | cons a t =>
      rw [calculateSMA_const _ _ h3 (by simp [hc]) (hc ▸ hC),
        calculateSMA_const _ _ h4 (by simp [hc]) (hc ▸ hC)]
  have hpc : (if 1 < (candles.map (·.close)).length then
      ((candles.map (·.close)).getLastD 0 - (candles.map (·.close)).headD 0) /
        (candles.map (·.close)).headD 0 * 100 else 0) = 0 := by
    split_ifs with hl
    · have hne : candles.map (·.close) ≠ [] := by
        intro he; rw [he] at hl; simp at hl
      have hlast : (candles.map (·.close)).getLastD 0 = v :=
        hC _ (getLastD_mem _ 0 hne)
      have hhead : (candles.map (·.close)).headD 0 = v := by
        cases hm : candles.map (·.close) with
        | nil => exact absurd hm hne
        | cons a t => exact hC a (by simp [hm])
      rw [hlast, hhead, sub_self, zero_div, zero_mul]
    · rfl
  refine ⟨?_, ?_, ?_, ?_⟩ <;>
    simp only [extractFeatures, hmacd, hsma, hpc]

/-- On a flat window neither score of `generateSignal` can exceed 2, so
the BUY gate (score strictly above 3) never opens. -/
theorem flat_scores {v : ℚ} (candles : List CandleData)
    (params : StrategyParams)
    (hflat : ∀ c ∈ candles, c.close = v)
    (h1 : 1 ≤ params.macdFast) (h2 : 1 ≤ params.macdSlow)
    (h3 : 1 ≤ params.smaFastPeriod) (h4 : 1 ≤ params.smaSlowPeriod) :
    bullishScore (extractFeatures candles params) params ≤ 2 ∧
    bearishScore (extractFeatures candles params) params ≤ 2 ∧
    generateSignal (extractFeatures candles params) params ≠ .BUY := by
  obtain ⟨hm, hms, hsma, hpc⟩ :=
    extractFeatures_flat candles params hflat h1 h2 h3 h4
  have hbull : bullishScore (extractFeatures candles params) params ≤ 2 := by
    unfold bullishScore
    rw [hm, hms, hpc, hsma]
    simp only [lt_self_iff_false, if_false, and_false]
    split_ifs <;> norm_num
  have hbear : bearishScore (extractFeatures candles params) params ≤ 2 := by
    unfold bearishScore
    rw [hm, hms, hpc, hsma]
    simp only [lt_self_iff_false, if_false, and_false]
    split_ifs <;> norm_num
  refine ⟨hbull, hbear, ?_⟩
  unfold generateSignal
  rw [if_neg (fun hh => absurd hh.2 (by push_neg; linarith))]
  split_ifs with hsell
  · exact fun he => Signal.noConfusion he
  · exact fun he => Signal.noConfusion he

/-- C5: on a candle series whose closes are all equal (any length, any
volumes) and any params with positive lookback periods,
`backtestStrategy` executes zero trades and returns profit 0, because
`generateSignal` never returns BUY on any prefix — no score crosses the
entry threshold of 3. -/
theorem backtestStrategy_flat (candles : List CandleData)
    (params : StrategyParams) (v : ℚ)
    (hflat : ∀ c ∈ candles, c.close = v)
    (h1 : 1 ≤ params.macdFast) (h2 : 1 ≤ params.macdSlow)
    (h3 : 1 ≤ params.smaFastPeriod) (h4 : 1 ≤ params.smaSlowPeriod) :
    (backtestStrategy candles params).trades = 0 ∧
    (backtestStrategy candles params).profit = 0 ∧
    ∀ i : ℕ,
      bullishScore (extractFeatures (candles.take (i + 1)) params) params ≤ 2 ∧
      bearishScore (extractFeatures (candles.take (i + 1)) params) params ≤ 2 ∧
      generateSignal (extractFeatures (candles.take (i + 1)) params) params ≠ .BUY := by
  have hpre : ∀ i : ℕ,
      bullishScore (extractFeatures (candles.take (i + 1)) params) params ≤ 2 ∧
      bearishScore (extractFeatures (candles.take (i + 1)) params) params ≤ 2 ∧
      generateSignal (extractFeatures (candles.take (i + 1)) params) params ≠ .BUY :=
    fun i => flat_scores (candles.take (i + 1)) params
      (fun c hc => hflat c (List.mem_of_mem_take hc)) h1 h2 h3 h4
  have hstep : ∀ i : ℕ, btStep candles params btInit i = btInit := by
    intro i
    simp only [btStep]
    rw [if_neg (fun hh => (hpre i).2.2 hh.1),
      if_neg (fun hh => by simp [btInit] at hh)]
  have hfold : ∀ l : List ℕ, l.foldl (btStep candles params) btInit = btInit := by
    intro l
    induction l with
    | nil => rfl
    | cons a t ih => rw [List.foldl_cons, hstep a, ih]
  have hfinal : btFinal candles params = btInit := by
    simp only [btFinal, hfold]
    rw [if_neg (by simp [btInit])]
  refine ⟨?_, ?_, hpre⟩
  · simp [backtestStrategy, hfinal, btInit]
  · simp only [backtestStrategy, hfinal, btInit]
    norm_num

/-- C5 witness. -/
theorem backtestStrategy_flat_witness :
    (backtestStrategy [] DEFAULT_PARAMS).trades = 0 :=
  (backtestStrategy_flat [] DEFAULT_PARAMS 0 (fun c hc => absurd hc (by simp))
    (by decide) (by decide) (by decide) (by decide)).1

/-- The exit cascade can only ever report `STOP_LOSS` or `TARGET`. -/
theorem checkExit_reason (cfg : BacktestConfig) (pos : OpenPosition)
    (price : ℚ) (r : ExitReason) (xp : ℚ)
    (h : checkExit cfg pos price = some (r, xp)) :
    r = .STOP_LOSS ∨ r = .TARGET := by
  unfold checkExit at h
  split_ifs at h <;> simp_all

/-- Unfolding equation for the per-bar position sweep. -/
theorem processPositions_cons (cfg : BacktestConfig) (price : ℚ) (date : ℤ)
    (p : OpenPosition) (ps : List OpenPosition) :
    processPositions cfg price date (p :: ps) =
      match checkExit cfg (updateTrailing cfg price p) price with
      | some (reason, exitPrice) =>
          ((processPositions cfg price date ps).1,
           (processPositions cfg price date ps).2.1 ++
             [mkTrade cfg (updateTrailing cfg price p) date reason exitPrice],
           (processPositions cfg price date ps).2.2 +
             (mkTrade cfg (updateTrailing cfg price p) date reason exitPrice).pnl)
      | none =>
          (updateTrailing cfg price p :: (processPositions cfg price date ps).1,
           (processPositions cfg price date ps).2.1,
           (processPositions cfg price date ps).2.2) := rfl

/-- Every trade the per-bar sweep produces exits by stop or target. -/
theorem processPositions_reasons (cfg : BacktestConfig) (price : ℚ)
    (date : ℤ) (positions : List OpenPosition) :
    ∀ t ∈ (processPositions cfg price date positions).2.1,
      t.exitReason = .STOP_LOSS ∨ t.exitReason = .TARGET := by
  induction positions with
  | nil => intro t ht; simp [processPositions] at ht
  | cons p ps ih =>
    intro t ht
    rw [processPositions_cons] at ht
    cases hce : checkExit cfg (updateTrailing cfg price p) price with
    | none =>
      simp only [hce] at ht
      exact ih t ht
    | some rp =>
      obtain ⟨r, xp⟩ := rp
      simp only [hce] at ht
      rcases List.mem_append.mp ht with h1 | h2
      · exact ih t h1
      · rw [List.mem_singleton] at h2
        subst h2
        simpa [mkTrade] using
          checkExit_reason cfg (updateTrailing cfg price p) price r xp hce

/-- One bar of the futures loop only appends stop or target exits to the
ledger. -/
theorem barStep_reasons (contract : FuturesContract)
    (predict : List FuturesHistoricalData → FuturesPrediction)
    (cfg : BacktestConfig) (data : List FuturesHistoricalData)
    (s : RunState) (i : ℕ)
    (hs : ∀ t ∈ s.trades, t.exitReason = .STOP_LOSS ∨
      t.exitReason = .TARGET ∨ t.exitReason = .END_OF_DATA) :
    ∀ t ∈ (barStep contract predict cfg data s i).trades,
      t.exitReason = .STOP_LOSS ∨ t.exitReason = .TARGET ∨
        t.exitReason = .END_OF_DATA := by
  intro t ht
  simp only [barStep] at ht
  rcases List.mem_append.mp ht with h1 | h2
  · exact hs t h1
  · rcases processPositions_reasons cfg _ _ _ t h2 with h | h
    · exact Or.inl h
    · exact Or.inr (Or.inl h)

/-- A trade with an admissible reason passes the Boolean check. -/
theorem exitReasonOK_of (t : BacktestTrade)
    (h : t.exitReason = .STOP_LOSS ∨ t.exitReason = .TARGET ∨
      t.exitReason = .END_OF_DATA) : exitReasonOK t = true := by
  unfold exitReasonOK
  rcases h with h | h | h <;> rw [h] <;> rfl

/-- C8: every trade in any `runFuturesBacktest` result carries exit
reason TARGET, STOP_LOSS or END_OF_DATA — the declared SIGNAL reason is
never assigned — and a trailing-stop exit is recorded with the same
STOP_LOSS constructor as a fixed-stop exit, so the two are
indistinguishable in the ledger. -/
theorem runFuturesBacktest_exitReasons (contract : FuturesContract)
    (predict : List FuturesHistoricalData → FuturesPrediction)
    (historicalData : List FuturesHistoricalData) (cfg : BacktestConfig) :
    resultReasonsOK (runFuturesBacktest contract predict historicalData cfg) = true ∧
    (∀ (pos : OpenPosition) (price : ℚ),
      ¬ fixedStopHit cfg pos price → trailingStopHit cfg pos price →
      (checkExit cfg pos price).map Prod.fst = some .STOP_LOSS) := by
  constructor
  · have hfold : ∀ (l : List ℕ) (s : RunState),
        (∀ t ∈ s.trades, t.exitReason = .STOP_LOSS ∨
          t.exitReason = .TARGET ∨ t.exitReason = .END_OF_DATA) →
        ∀ t ∈ (l.foldl (barStep contract predict cfg historicalData) s).trades,
          t.exitReason = .STOP_LOSS ∨ t.exitReason = .TARGET ∨
            t.exitReason = .END_OF_DATA := by
      intro l
      induction l with
      | nil => intro s hs; exact hs
      | cons a u ih =>
        intro s hs
        exact ih _ (barStep_reasons contract predict cfg historicalData s a hs)
    simp only [runFuturesBacktest]
    split_ifs with hlen
    · rfl
    · simp only [resultReasonsOK]
      rw [List.all_eq_true]
      intro t ht
      apply exitReasonOK_of
      rcases List.mem_append.mp ht with h1 | h2
      · exact hfold _ ⟨cfg.initialCapital, cfg.initialCapital, 0, [], [], []⟩
          (fun t ht => absurd ht (List.not_mem_nil t)) t h1
      · obtain ⟨ppos, -, rfl⟩ := List.mem_map.mp h2
        right; right; rfl
  · intro pos price hfs htr
    obtain ⟨ht, hd⟩ := htr
    have h1 : ¬(cfg.useStopLoss = true ∧ pos.type = .LONG ∧ price ≤ pos.stopLoss) :=
      fun ⟨a, b, c⟩ => hfs ⟨a, Or.inl ⟨b, c⟩⟩
    have h2 : ¬(cfg.useStopLoss = true ∧ pos.type = .SHORT ∧ pos.stopLoss ≤ price) :=
      fun ⟨a, b, c⟩ => hfs ⟨a, Or.inr ⟨b, c⟩⟩
    rcases hd with ⟨hl, hle⟩ | ⟨hs, hle⟩
    · unfold checkExit
      rw [if_neg h1, if_neg h2, if_pos ⟨ht, hl, hle⟩]
      rfl
    · have h3 : ¬(cfg.useTrailingStop = true ∧ pos.type = .LONG ∧
          price ≤ pos.trailingStop) :=
        fun ⟨_, b, _⟩ => by rw [hs] at b; exact PositionType.noConfusion b
      unfold checkExit
      rw [if_neg h1, if_neg h2, if_neg h3, if_pos ⟨ht, hs, hle⟩]
      rfl

/-- C8 witness. -/
theorem runFuturesBacktest_exitReasons_witness :
    (checkExit DEFAULT_BACKTEST_CONFIG
      ⟨0, "SYM", .LONG, 100, 1, 90, 110, 97⟩ 96).map Prod.fst =
      some .STOP_LOSS :=
  (runFuturesBacktest_exitReasons ⟨"SYM", 1, 1⟩ (fun _ => ⟨.HOLD, 0, 0, 0⟩)
      [] DEFAULT_BACKTEST_CONFIG).2
    ⟨0, "SYM", .LONG, 100, 1, 90, 110, 97⟩ 96
    (by
      norm_num [fixedStopHit, DEFAULT_BACKTEST_CONFIG]
      exact fun h => PositionType.noConfusion h)
    (by norm_num [trailingStopHit, DEFAULT_BACKTEST_CONFIG])

end Trading
